import Mathlib

/-!
Verification of the menu-visibility / capability-gating logic and the
staking-account role-derivation logic of the crust-apps front-end.

The embedding follows `packages/apps/src/Menu/index.tsx` (`logDisabled`,
`checkVisible`, `extractGroups`) and the staking `Account` component
(role `useEffect`, guaranteed-stake fold).  The module-level
`disabledLog` JavaScript `Map` is made explicit: the stateful functions
take the map as an argument and return the updated map together with the
list of `console.warn` messages emitted during the call.
-/

namespace CrustApps

/-- The module-level `disabledLog` map: association list in insertion
order, mirroring JavaScript `Map` iteration/update semantics. -/
abbrev LogMap := List (String × String)

/-- `Map.get`: the value stored at `k`, or `none` when absent. -/
def mapGet : LogMap → String → Option String
  | [], _ => none
  | p :: rest, k => if p.1 = k then some p.2 else mapGet rest k

/-- `Map.set`: update the entry in place when the key exists (keeping
its position), otherwise append a new entry. -/
def mapSet : LogMap → String → String → LogMap
  | [], k, v => [(k, v)]
  | p :: rest, k, v => if p.1 = k then (k, v) :: rest else p :: mapSet rest k v

/-- `logDisabled` from `Menu/index.tsx`.  The source guard is
`if (!disabledLog.get(route))`: it fires both when the key is absent
(`undefined` is falsy) and when the stored message is the empty string
(`""` is falsy).  Returns the updated map and the emitted warnings. -/
def logDisabled (st : LogMap) (route message : String) : LogMap × List String :=
  match mapGet st route with
  | none => (mapSet st route message, ["Disabling " ++ route ++ ": " ++ message])
  | some s =>
      if s = "" then (mapSet st route message, ["Disabling " ++ route ++ ": " ++ message])
      else (st, [])

/-- Modelled from the spec: `findMissingApis` is imported from
`../endpoint`, which is not among the sources; the spec says it computes
"the subset of `requiredCapabilities` absent from `capabilities`".
The `api` object is abstracted to the set (list) of capability
identifiers it currently exposes. -/
def findMissingApis (apiCaps : List String) (needsApi : List String) : List String :=
  needsApi.filter (fun c => decide (c ∉ apiCaps))

/-- `Route.display` from `apps-routing`.  The optional boolean flags are
collapsed to `Bool` (absent = `false`, matching JS truthiness); the
optional `needsApi` capability list keeps its absent case, since an
empty array is truthy in JS while `undefined` is falsy. -/
structure Display where
  isHidden : Bool := false
  needsAccounts : Bool := false
  needsApi : Option (List String) := none
  needsSudo : Bool := false
deriving DecidableEq

/-- The fields of a navigation `Route` used by the menu. -/
structure Route where
  name : String
  group : String
  display : Display
deriving DecidableEq

/-- A menu `Group`: display name (from the `groupNames` record, absent
group keys map to `undefined`) and the contained routes. -/
structure Group where
  name : Option String
  routes : List Route
deriving DecidableEq

/-- `checkVisible` from `Menu/index.tsx`, with the module-level
`disabledLog` map passed in and returned explicitly.  The `api`
parameter is abstracted to the capability list consumed by
`findMissingApis`; `isApiConnected`/`isApiReady` are the destructured
`ApiProps` flags.  Result: (returned boolean, updated map, warnings). -/
def checkVisible (st : LogMap) (name : String) (apiCaps : List String)
    (isApiConnected isApiReady : Bool) (hasAccounts hasSudo : Bool)
    (d : Display) : Bool × LogMap × List String :=
  if d.isHidden then (false, st, [])
  else if d.needsAccounts && !hasAccounts then (false, st, [])
  else
    match d.needsApi with
    | none => (true, st, [])
    | some needsApi =>
        if !isApiReady || !isApiConnected then (false, st, [])
        else if d.needsSudo && !hasSudo then
          let r := logDisabled st name "Sudo key not available"
          (false, r.1, r.2)
        else
          let notFound := findMissingApis apiCaps needsApi
          if notFound.length ≠ 0 then
            let r := logDisabled st name ("API not available: " ++ String.intercalate "," notFound)
            (false, r.1, r.2)
          else (true, st, [])

/-- The visibility verdict of `checkVisible`.  The boolean the source
returns does not depend on the `disabledLog` state (only the logging
side effect does; see `checkVisible_fst`), so the verdict is taken at
the empty map. -/
def checkVisibleBool (name : String) (apiCaps : List String)
    (isApiConnected isApiReady : Bool) (hasAccounts hasSudo : Bool)
    (d : Display) : Bool :=
  (checkVisible [] name apiCaps isApiConnected isApiReady hasAccounts hasSudo d).1

/-- One step of the `routing.reduce` accumulator in `extractGroups`:
`if (!all[route.group])` create the group entry (JS object string keys
preserve insertion order), `else` push the route onto the existing
entry. -/
def addRoute (groupNames : List (String × String)) (all : List (String × Group))
    (r : Route) : List (String × Group) :=
  if (all.find? (fun p => decide (p.1 = r.group))).isSome then
    all.map (fun p => if p.1 = r.group then (p.1, { p.2 with routes := p.2.routes ++ [r] }) else p)
  else
    all ++ [(r.group, { name := mapGet groupNames r.group, routes := [r] })]

/-- `extractGroups` from `Menu/index.tsx`: reduce into a keyed object,
take its values, filter each group's routes by `checkVisible`, drop
groups whose filtered route list has length `0` (JS number truthiness).
The filter predicate uses the state-independent verdict
`checkVisibleBool` (justified by `checkVisible_fst`). -/
def extractGroups (routing : List Route) (groupNames : List (String × String))
    (apiCaps : List String) (isApiConnected isApiReady : Bool)
    (hasAccounts hasSudo : Bool) : List Group :=
  (((routing.foldl (addRoute groupNames) []).map (fun p => p.2)).map
    (fun g => { name := g.name,
                routes := g.routes.filter
                  (fun r => checkVisibleBool r.name apiCaps isApiConnected isApiReady hasAccounts hasSudo r.display) })).filter
    (fun g => decide (g.routes.length ≠ 0))

/-- Group keys of a route list in first-seen order, skipping keys
already in `seen`. -/
def newGroupKeys (seen : List String) : List Route → List String
  | [] => []
  | r :: rs =>
      if r.group ∈ seen then newGroupKeys seen rs
      else r.group :: newGroupKeys (r.group :: seen) rs

/-- Group keys of a route list in first-seen order. -/
def firstSeenKeys (routing : List Route) : List String :=
  newGroupKeys [] routing

/-- Spec-side definition of the route visibility filter, following the
spec's words: partition by group key preserving first-seen group order
and intra-group insertion order, filter each group's routes by the
visibility verdict, emit a group only if at least one route survives. -/
def computeVisibleGroups (routing : List Route) (groupNames : List (String × String))
    (apiCaps : List String) (isApiConnected isApiReady : Bool)
    (hasAccounts hasSudo : Bool) : List Group :=
  ((firstSeenKeys routing).map
    (fun k => { name := mapGet groupNames k,
                routes := (routing.filter (fun r => decide (r.group = k))).filter
                  (fun r => checkVisibleBool r.name apiCaps isApiConnected isApiReady hasAccounts hasSudo r.display) })).filter
    (fun g => decide (g.routes.length ≠ 0))

/-- The four display roles of the staking `Account` component. -/
inductive Role where
  | Bonded
  | Guarantor
  | Candidate
  | Validator
deriving DecidableEq

/-- The role precedence chain of the `Account` role `useEffect`
(spec contract `classifyRole(isGuarantor, isValidator, isCandidate)`):
first true flag wins, in the order Guarantor, Candidate, Validator,
else Bonded. -/
def classifyRole (isGuarantor isValidator isCandidate : Bool) : Role :=
  if isGuarantor then Role.Guarantor
  else if isCandidate then Role.Candidate
  else if isValidator then Role.Validator
  else Role.Bonded

/-- One entry of a guarantor's target list (`IndividualExposure`):
backed validator and staked value.  Chain balances are unbounded
non-negative integers. -/
structure IndividualExposure where
  who : String
  value : Nat
deriving DecidableEq

/-- The decoded `staking.guarantors` query result (`Guarantee`); only
the target list matters for the specified logic. -/
structure Guarantee where
  targets : List IndividualExposure
deriving DecidableEq

/-- The `SortedTargets` input; `waitingIds` is optional in the source
type, so its absent case is kept. -/
structure SortedTargets where
  waitingIds : Option (List String)
deriving DecidableEq

/-- The role `useEffect` of the staking `Account` component.  Each
subscription result may be absent (`none` = not yet loaded /
`undefined`).  `isCandidate` mirrors
`targets && (targets.waitingIds?.indexOf(stashId) != -1)`: when
`targets` is present but `waitingIds` is absent the optional chain
yields `undefined`, and `undefined != -1` is `true` in JS. -/
def deriveRole (guarantorInfo : Option Guarantee) (validators : Option (List String))
    (targets : Option SortedTargets) (stashId : String) : Role :=
  let isGuarantor : Bool :=
    match guarantorInfo with
    | some g => decide (g.targets.length ≠ 0)
    | none => false
  let isValidator : Bool :=
    match validators with
    | some vs => decide (stashId ∈ vs)
    | none => false
  let isCandidate : Bool :=
    match targets with
    | some t =>
        match t.waitingIds with
        | some ws => decide (stashId ∈ ws)
        | none => true
    | none => false
  if isGuarantor then Role.Guarantor
  else if isCandidate then Role.Candidate
  else if isValidator then Role.Validator
  else Role.Bonded

/-- Rounding of a non-negative integer to the nearest IEEE-754 double
(ties to even), as performed by the JavaScript `Number(value)`
conversion: integers up to 2^53 are exact; above, the value is rounded
to a multiple of its unit in the last place 2^e.  `fuel` bounds the
exponent search (1024 covers the double range). -/
def ulpExp : Nat → Nat → Nat
  | 0, _ => 0
  | fuel + 1, n => if n < 2 ^ 53 then 0 else ulpExp fuel (n / 2) + 1

/-- Round a non-negative integer to the nearest representable double,
ties to even. -/
def roundToDouble (n : Nat) : Nat :=
  if n ≤ 2 ^ 53 then n
  else
    let e := ulpExp 1024 n
    let q := n / 2 ^ e
    let r := n % 2 ^ e
    let h := 2 ^ (e - 1)
    (if h < r ∨ (r = h ∧ q % 2 = 1) then q + 1 else q) * 2 ^ e

/-- The guaranteed-stake fold of the `Account` component:
`guaranteeTargets.reduce((total, {value}) => total.add(new BN(Number(value).toString())), BN_ZERO)`.
Each target value passes through the JS `Number` conversion (a 64-bit
float) before re-entering the big-integer sum, which `roundToDouble`
models for integers below 10^21 (where `toString` yields plain decimal
digits). -/
def stakeValue (guaranteeTargets : List IndividualExposure) : Nat :=
  guaranteeTargets.foldl (fun total e => total + roundToDouble e.value) 0

end CrustApps

namespace CrustApps

/-! ### Basic lemmas about the diagnostic map and the visibility verdict -/

lemma mapGet_mapSet (st : LogMap) (k v k' : String) :
    mapGet (mapSet st k v) k' = if k' = k then some v else mapGet st k' := by
  induction st with
  | nil => simp [mapSet, mapGet, eq_comm]
  | cons p rest ih =>
      by_cases hp : p.1 = k
      · simp only [mapSet, if_pos hp, mapGet]
        by_cases hk : k = k'
        · simp [hk]
        · rw [if_neg hk, if_neg (fun h : k' = k => hk h.symm)]
          show mapGet rest k' = if p.1 = k' then some p.2 else mapGet rest k'
          rw [if_neg (fun h : p.1 = k' => hk (hp.symm.trans h))]
      · simp only [mapSet, if_neg hp, mapGet]
        by_cases hp' : p.1 = k'
        · have : ¬ k' = k := fun h => hp (h ▸ hp')
          simp [hp', this]
        · simp [hp', ih]

lemma mapGet_mapSet_self (st : LogMap) (k v : String) :
    mapGet (mapSet st k v) k = some v := by
  simp [mapGet_mapSet]

lemma logDisabled_stable (st : LogMap) (k m msg : String)
    (h : mapGet st k = some m) (hm : m ≠ "") : logDisabled st k msg = (st, []) := by
  simp [logDisabled, h, hm]

lemma mapGet_logDisabled_self (st : LogMap) (k m : String) (hm : m ≠ "") :
    ∃ s, mapGet (logDisabled st k m).1 k = some s ∧ s ≠ "" := by
  unfold logDisabled
  cases h : mapGet st k with
  | none => exact ⟨m, by simp [mapGet_mapSet_self], hm⟩
  | some s =>
      by_cases hs : s = ""
      · exact ⟨m, by simp [hs, mapGet_mapSet_self], hm⟩
      · exact ⟨s, by simp [hs, h], hs⟩

lemma api_msg_ne_empty (s : String) : ("API not available: " ++ s) ≠ "" := by
  intro h
  have h1 := congrArg String.length h
  simp [String.length_append] at h1
  exact absurd h1.1 (by decide)

/-- The boolean `checkVisible` returns does not depend on the
`disabledLog` state. -/
lemma checkVisible_fst (st : LogMap) (name : String) (apiCaps : List String)
    (conn ready hA hS : Bool) (d : Display) :
    (checkVisible st name apiCaps conn ready hA hS d).1
      = checkVisibleBool name apiCaps conn ready hA hS d := by
  rcases d with ⟨ih, na, napi, ns⟩
  cases ih <;> cases napi <;> cases na <;> cases hA <;> cases ready <;> cases conn <;>
    cases ns <;> cases hS <;>
    simp [checkVisible, checkVisibleBool, apply_ite]

/-- A route passing the visibility check is not force-hidden. -/
lemma checkVisibleBool_isHidden (name : String) (apiCaps : List String)
    (conn ready hA hS : Bool) (d : Display)
    (h : checkVisibleBool name apiCaps conn ready hA hS d = true) :
    d.isHidden = false := by
  by_contra hh
  rw [Bool.not_eq_false] at hh
  simp [checkVisibleBool, checkVisible, hh] at h

end CrustApps

namespace CrustApps

/-- Claim C2: the role classifier applies the fixed precedence
Guarantor, Candidate, Validator, Bonded, first true flag winning; in
particular an address that is simultaneously guarantor and validator is
classified Guarantor. -/
theorem claim_C2 :
    (∀ v c : Bool, classifyRole true v c = Role.Guarantor)
    ∧ classifyRole false true true = Role.Candidate
    ∧ classifyRole false true false = Role.Validator
    ∧ classifyRole false false false = Role.Bonded :=
  ⟨fun _ _ => rfl, rfl, rfl, rfl⟩

/-- Claim C3 (code bug): the guaranteed-stake fold sums the example
targets to 350, but each value passes through the JS `Number`
conversion, so a value just above the 64-bit float-safe range
(2^53 + 1 = 9007199254740993) is rounded to 2^53 = 9007199254740992 and
the sum is not the exact big-integer sum the spec requires. -/
theorem claim_C3 :
    stakeValue [⟨"t1", 100⟩, ⟨"t2", 250⟩] = 350
    ∧ stakeValue [⟨"v", 9007199254740993⟩] = 9007199254740992 := by
  decide

/-- Claim C5: a route with `forceHidden` (`isHidden`) never appears in
the output of the route visibility filter, whatever the context flags
and the capability set. -/
theorem claim_C5 (routing : List Route) (gn : List (String × String))
    (apiCaps : List String) (conn ready hA hS : Bool) (g : Group)
    (hg : g ∈ extractGroups routing gn apiCaps conn ready hA hS)
    (r : Route) (hr : r ∈ g.routes) : r.display.isHidden = false := by
  unfold extractGroups at hg
  have hg1 := (List.mem_filter.mp hg).1
  rcases List.mem_map.mp hg1 with ⟨g0, _, rfl⟩
  have hvis := (List.mem_filter.mp hr).2
  exact checkVisibleBool_isHidden r.name apiCaps conn ready hA hS r.display hvis

/-- Concrete instance of `claim_C5`. -/
theorem claim_C5_witness :
    ((⟨none, [⟨"accounts", "accounts", ⟨false, false, none, false⟩⟩]⟩ : Group)
        ∈ extractGroups [⟨"accounts", "accounts", ⟨false, false, none, false⟩⟩]
            [] [] true true true true
      ∧ (⟨"accounts", "accounts", ⟨false, false, none, false⟩⟩ : Route)
        ∈ (⟨none, [⟨"accounts", "accounts", ⟨false, false, none, false⟩⟩]⟩ : Group).routes)
    ∧ (⟨"accounts", "accounts", ⟨false, false, none, false⟩⟩ : Route).display.isHidden = false :=
  ⟨⟨by decide, by decide⟩,
   claim_C5 [⟨"accounts", "accounts", ⟨false, false, none, false⟩⟩] [] [] true true true true
     ⟨none, [⟨"accounts", "accounts", ⟨false, false, none, false⟩⟩]⟩ (by decide)
     ⟨"accounts", "accounts", ⟨false, false, none, false⟩⟩ (by decide)⟩

/-- Claim C8: for a route with `needsApi` absent (`requiresApi =
false`), the visibility verdict does not depend on the capability set
or on the connection-state flags. -/
theorem claim_C8 (name : String) (hA hS : Bool) (d : Display)
    (h : d.needsApi = none)
    (caps₁ caps₂ : List String) (conn₁ conn₂ ready₁ ready₂ : Bool) :
    checkVisibleBool name caps₁ conn₁ ready₁ hA hS d
      = checkVisibleBool name caps₂ conn₂ ready₂ hA hS d := by
  simp [checkVisibleBool, checkVisible, h]

/-- Concrete instance of `claim_C8`. -/
theorem claim_C8_witness :
    checkVisibleBool "settings" [] false false true false
        ⟨false, false, none, false⟩
      = checkVisibleBool "settings" ["q"] true true true false
        ⟨false, false, none, false⟩ :=
  claim_C8 "settings" true false ⟨false, false, none, false⟩ rfl [] ["q"] false true false true

end CrustApps

namespace CrustApps

lemma mapGet_mapSet_isSome (st : LogMap) (k v k' : String)
    (h : (mapGet st k').isSome = true) :
    (mapGet (mapSet st k v) k').isSome = true := by
  rw [mapGet_mapSet]
  split
  · rfl
  · exact h

lemma mapGet_logDisabled_isSome (st : LogMap) (n m k : String)
    (h : (mapGet st k).isSome = true) :
    (mapGet (logDisabled st n m).1 k).isSome = true := by
  unfold logDisabled
  cases hg : mapGet st n with
  | none => exact mapGet_mapSet_isSome st n m k h
  | some s =>
      by_cases hs : s = ""
      · simpa [hs] using mapGet_mapSet_isSome st n m k h
      · simpa [hs] using h

/-- Claim C1 fails as stated: a force-hidden route whose single required
capability is present, with the API connected and ready, is still not
visible, so "visible iff connected, ready and capabilities present" does
not hold for every route with non-empty `requiredCapabilities`. -/
theorem claim_C1_counterexample :
    ¬ (checkVisibleBool "storage" ["q"] true true true true
          ⟨true, false, some ["q"], false⟩ = true
        ↔ (true = true ∧ true = true
            ∧ ∀ c ∈ (["q"] : List String), c ∈ (["q"] : List String))) := by
  decide

/-- Claim C1 (amended): for a route with non-empty `requiredCapabilities`
that is not force-hidden and does not fail the accounts check or the
sudo check, the visibility verdict holds iff the API is connected and
ready and every required capability is present. -/
theorem claim_C1 (name : String) (apiCaps : List String) (conn ready hA hS : Bool)
    (d : Display) (l : List String)
    (hhid : d.isHidden = false)
    (hacc : (d.needsAccounts && !hA) = false)
    (hsudo : (d.needsSudo && !hS) = false)
    (hapi : d.needsApi = some l) (hne : l ≠ []) :
    checkVisibleBool name apiCaps conn ready hA hS d = true
      ↔ (conn = true ∧ ready = true ∧ ∀ c ∈ l, c ∈ apiCaps) := by
  have hmiss : findMissingApis apiCaps l = [] ↔ ∀ c ∈ l, c ∈ apiCaps := by
    simp [findMissingApis, List.filter_eq_nil_iff]
  cases ready with
  | false => simp [checkVisibleBool, checkVisible, hhid, hacc, hapi]
  | true =>
      cases conn with
      | false => simp [checkVisibleBool, checkVisible, hhid, hacc, hapi]
      | true =>
          by_cases hf : findMissingApis apiCaps l = []
          · simp [checkVisibleBool, checkVisible, hhid, hacc, hapi, hsudo, hf]
            exact hmiss.mp hf
          · have hlen : (findMissingApis apiCaps l).length ≠ 0 := by
              simpa [List.length_eq_zero] using hf
            simp only [checkVisibleBool, checkVisible, hhid, hacc, hapi, hsudo]
            simp [hlen]
            have hnb : ¬ ∀ c ∈ l, c ∈ apiCaps := fun hall => hf (hmiss.mpr hall)
            push_neg at hnb
            exact hnb

/-- Concrete instance of `claim_C1`. -/
theorem claim_C1_witness :
    ((["q"] : List String) ≠ [])
    ∧ (checkVisibleBool "storage" ["q"] true true true true
          ⟨false, false, some ["q"], false⟩ = true
        ↔ (true = true ∧ true = true ∧ ∀ c ∈ (["q"] : List String), c ∈ (["q"] : List String))) :=
  ⟨by decide,
   claim_C1 "storage" ["q"] true true true true ⟨false, false, some ["q"], false⟩ ["q"]
     rfl rfl rfl rfl (by decide)⟩

/-- Claim C4 fails as stated: with the guarantor subscription still null
and the candidate pool absent, an address present in the (loaded)
validator set derives role Validator, not the default Bonded. -/
theorem claim_C4_counterexample :
    deriveRole none (some ["stash1"]) none "stash1" = Role.Validator
    ∧ Role.Validator ≠ Role.Bonded := by
  decide

/-- Claim C4 (amended): each absent upstream result is treated as its
flag being unsatisfied rather than as an error — with all three inputs
absent the role is the default Bonded, a null guarantor result never
yields Guarantor, an absent validator set never yields Validator — and
a route that requires the API is not visible while the API is not
ready. -/
theorem claim_C4 :
    (∀ stashId, deriveRole none none none stashId = Role.Bonded)
    ∧ (∀ validators targets stashId,
        deriveRole none validators targets stashId ≠ Role.Guarantor)
    ∧ (∀ guarantorInfo targets stashId,
        deriveRole guarantorInfo none targets stashId ≠ Role.Validator)
    ∧ (∀ (name : String) (apiCaps : List String) (conn hA hS : Bool) (d : Display)
        (l : List String), d.needsApi = some l →
        checkVisibleBool name apiCaps conn false hA hS d = false) := by
  refine ⟨fun _ => rfl, ?_, ?_, ?_⟩
  · intro v t s
    simp only [deriveRole]
    split
    · simp_all
    · split
      · simp_all
      · split <;> simp_all
  · intro g t s
    simp only [deriveRole]
    split
    · simp_all
    · split
      · simp_all
      · split <;> simp_all
  · intro name apiCaps conn hA hS d l h
    rcases d with ⟨ih, na, napi, ns⟩
    simp only at h
    subst h
    cases ih <;> cases hacc : (na && !hA) <;>
      simp [checkVisibleBool, checkVisible, hacc]

/-- Concrete instance of `claim_C4`. -/
theorem claim_C4_witness :
    deriveRole none none none "stash1" = Role.Bonded
    ∧ checkVisibleBool "storage" ["q"] true false true true
        ⟨false, false, some ["q"], false⟩ = false :=
  ⟨claim_C4.1 "stash1",
   claim_C4.2.2.2 "storage" ["q"] true true true ⟨false, false, some ["q"], false⟩ ["q"] rfl⟩

end CrustApps

namespace CrustApps

/-- Claim C6: a route reaching the sudo check with `needsSudo` and no
sudo privilege is not visible, and the sudo diagnostic is emitted
exactly when the route name is not yet recorded (dedup), independently
of the capability set — the sudo check precedes the missing-capability
computation, so no capability diagnostic is produced. -/
theorem claim_C6 (st : LogMap) (name : String) (apiCaps : List String)
    (hA : Bool) (d : Display) (l : List String)
    (hhid : d.isHidden = false)
    (hacc : (d.needsAccounts && !hA) = false)
    (hapi : d.needsApi = some l)
    (hsudo : d.needsSudo = true) :
    (mapGet st name = none →
      checkVisible st name apiCaps true true hA false d
        = (false, mapSet st name "Sudo key not available",
            ["Disabling " ++ name ++ ": " ++ "Sudo key not available"]))
    ∧ (∀ m, mapGet st name = some m → m ≠ "" →
        checkVisible st name apiCaps true true hA false d = (false, st, [])) := by
  constructor
  · intro h
    simp [checkVisible, hhid, hacc, hapi, hsudo, logDisabled, h]
  · intro m hm hne
    simp [checkVisible, hhid, hacc, hapi, hsudo, logDisabled, hm, hne]

/-- Concrete instance of `claim_C6`. -/
theorem claim_C6_witness :
    checkVisible [] "storage" [] true true true false
        ⟨false, false, some ["q"], true⟩
      = (false, [("storage", "Sudo key not available")],
          ["Disabling storage: Sudo key not available"]) := by
  simpa [mapSet] using
    (claim_C6 [] "storage" [] true ⟨false, false, some ["q"], true⟩ ["q"]
      rfl rfl rfl rfl).1 rfl

/-- Claim C10 fails as stated: the source's dedup guard
`if (!disabledLog.get(route))` treats an empty stored message as
not-yet-logged, so after a message has been recorded as `""`, a later
call with a different message emits again and overwrites. -/
theorem claim_C10_counterexample :
    logDisabled [] "r" "" = ([("r", "")], ["Disabling r: "])
    ∧ logDisabled [("r", "")] "r" "m" = ([("r", "m")], ["Disabling r: m"])
    ∧ ([("r", "m")], ["Disabling r: m"]) ≠ (([("r", "")] : LogMap), ([] : List String)) := by
  decide

/-- Claim C10 (amended): once a non-empty diagnostic message has been
recorded for a route name, every later `logDisabled` call for that name
is a no-op — nothing is emitted and the stored message is not
overwritten, whatever message the call carries — and the dedup map only
ever grows: no call removes a recorded key. -/
theorem claim_C10 (st : LogMap) (name m msg : String)
    (h : mapGet st name = some m) (hm : m ≠ "") :
    logDisabled st name msg = (st, [])
    ∧ ∀ (st' : LogMap) (n' m' k : String), (mapGet st' k).isSome = true →
        (mapGet (logDisabled st' n' m').1 k).isSome = true :=
  ⟨logDisabled_stable st name m msg h hm,
   fun st' n' m' k hk => mapGet_logDisabled_isSome st' n' m' k hk⟩

/-- Concrete instance of `claim_C10`. -/
theorem claim_C10_witness :
    logDisabled [("storage", "Sudo key not available")] "storage" "API not available: q"
      = ([("storage", "Sudo key not available")], [])
    ∧ ∀ (st' : LogMap) (n' m' k : String), (mapGet st' k).isSome = true →
        (mapGet (logDisabled st' n' m').1 k).isSome = true :=
  claim_C10 [("storage", "Sudo key not available")] "storage" "Sudo key not available"
    "API not available: q" (by decide) (by decide)

end CrustApps

namespace CrustApps

/-- Claim C9: re-evaluating the same visibility check starting from the
state its first evaluation left behind yields the same verdict and the
same state, and emits no further diagnostic — so across any number of
re-renders the diagnostic for a route name fires at most once. -/
theorem claim_C9 (st : LogMap) (name : String) (apiCaps : List String)
    (conn ready hA hS : Bool) (d : Display) :
    checkVisible (checkVisible st name apiCaps conn ready hA hS d).2.1
        name apiCaps conn ready hA hS d
      = ((checkVisible st name apiCaps conn ready hA hS d).1,
         (checkVisible st name apiCaps conn ready hA hS d).2.1, ([] : List String)) := by
  rcases d with ⟨ih, na, napi, ns⟩
  cases ih with
  | true => simp [checkVisible]
  | false =>
      cases hacc : (na && !hA) with
      | true => simp [checkVisible, hacc]
      | false =>
          cases napi with
          | none => simp [checkVisible, hacc]
          | some l =>
              cases hrc : (!ready || !conn) with
              | true => simp [checkVisible, hacc, hrc]
              | false =>
                  cases hs : (ns && !hS) with
                  | true =>
                      obtain ⟨s, hs1, hs2⟩ :=
                        mapGet_logDisabled_self st name "Sudo key not available" (by decide)
                      simp [checkVisible, hacc, hrc, hs,
                        logDisabled_stable _ name s _ hs1 hs2]
                  | false =>
                      by_cases hf : (findMissingApis apiCaps l).length ≠ 0
                      · obtain ⟨s, hs1, hs2⟩ :=
                          mapGet_logDisabled_self st name
                            ("API not available: "
                              ++ String.intercalate "," (findMissingApis apiCaps l))
                            (api_msg_ne_empty _)
                        simp [checkVisible, hacc, hrc, hs, hf,
                          logDisabled_stable _ name s _ hs1 hs2]
                      · simp [checkVisible, hacc, hrc, hs, hf]

end CrustApps

namespace CrustApps

lemma newGroupKeys_congr : ∀ (l : List Route) (s₁ s₂ : List String),
    (∀ x, x ∈ s₁ ↔ x ∈ s₂) → newGroupKeys s₁ l = newGroupKeys s₂ l := by
  intro l
  induction l with
  | nil => intro s₁ s₂ _; rfl
  | cons r rs ih =>
      intro s₁ s₂ h
      simp only [newGroupKeys]
      by_cases hm : r.group ∈ s₁
      · rw [if_pos hm, if_pos ((h _).mp hm)]
        exact ih s₁ s₂ h
      · rw [if_neg hm, if_neg (fun hc => hm ((h _).mpr hc))]
        exact congrArg (r.group :: ·) (ih _ _ (fun x => by simp [List.mem_cons, h x]))

lemma mem_newGroupKeys : ∀ (l : List Route) (seen : List String) (k : String),
    k ∈ newGroupKeys seen l → k ∉ seen := by
  intro l
  induction l with
  | nil => intro seen k h; simp [newGroupKeys] at h
  | cons r rs ih =>
      intro seen k h
      simp only [newGroupKeys] at h
      by_cases hm : r.group ∈ seen
      · rw [if_pos hm] at h
        exact ih seen k h
      · rw [if_neg hm] at h
        rcases List.mem_cons.mp h with h1 | h2
        · exact h1 ▸ hm
        · exact fun hk => (ih _ k h2) (List.mem_cons_of_mem _ hk)

lemma find?_key_isSome (all : List (String × Group)) (g : String) :
    (all.find? (fun p => decide (p.1 = g))).isSome = true ↔ g ∈ all.map (fun p => p.1) := by
  rw [List.find?_isSome]
  simp [List.mem_map, eq_comm]

/-- Closed form of the `extractGroups` reduce: starting from an
accumulator `acc`, folding the routes extends each existing entry with
the routes of its key, then appends one entry per key first seen in
`routing` and not already in `acc`, carrying all routes of that key in
input order. -/
lemma foldl_addRoute (gn : List (String × String)) :
    ∀ (routing : List Route) (acc : List (String × Group)),
      routing.foldl (addRoute gn) acc =
        acc.map (fun p => (p.1,
            { p.2 with routes := p.2.routes ++ routing.filter (fun r => decide (r.group = p.1)) }))
        ++ (newGroupKeys (acc.map (fun p => p.1)) routing).map
            (fun k => (k, ({ name := mapGet gn k,
                             routes := routing.filter (fun r => decide (r.group = k)) } : Group))) := by
  intro routing
  induction routing with
  | nil =>
      intro acc
      simp only [List.foldl_nil, List.filter_nil, List.append_nil, newGroupKeys,
        List.map_nil]
      exact (List.map_id acc).symm
  | cons r rs ih =>
      intro acc
      rw [List.foldl_cons, ih (addRoute gn acc r)]
      by_cases hfind : (acc.find? (fun p => decide (p.1 = r.group))).isSome = true
      · have hmem : r.group ∈ acc.map (fun p => p.1) := (find?_key_isSome acc r.group).mp hfind
        have haddr : addRoute gn acc r
            = acc.map (fun p =>
                if p.1 = r.group then (p.1, { p.2 with routes := p.2.routes ++ [r] }) else p) := by
          simp only [addRoute]
          rw [if_pos hfind]
        rw [haddr]
        have hkeys : ((acc.map (fun p =>
            if p.1 = r.group then (p.1, { p.2 with routes := p.2.routes ++ [r] }) else p)).map
              (fun p => p.1)) = acc.map (fun p => p.1) := by
          rw [List.map_map]
          apply List.map_congr_left
          intro p _
          by_cases hp : p.1 = r.group <;> simp [hp]
        rw [hkeys]
        have hnk : newGroupKeys (acc.map (fun p => p.1)) (r :: rs)
            = newGroupKeys (acc.map (fun p => p.1)) rs := by
          simp [newGroupKeys, hmem]
        rw [hnk]
        congr 1
        · rw [List.map_map]
          apply List.map_congr_left
          intro p _
          simp only [Function.comp_apply]
          by_cases hp : p.1 = r.group
          · rw [if_pos hp]
            have hg : decide (r.group = p.1) = true := decide_eq_true hp.symm
            simp [List.filter_cons, hg, List.append_assoc]
          · rw [if_neg hp]
            have hg : decide (r.group = p.1) = false :=
              decide_eq_false (fun h => hp h.symm)
            simp [List.filter_cons, hg]
        · apply List.map_congr_left
          intro k hk
          have hkne : ¬ (r.group = k) :=
            fun h => (mem_newGroupKeys rs _ k hk) (h ▸ hmem)
          simp [List.filter_cons, hkne]
      · have hmem : r.group ∉ acc.map (fun p => p.1) :=
          fun hc => hfind ((find?_key_isSome acc r.group).mpr hc)
        have haddr : addRoute gn acc r
            = acc ++ [(r.group, ({ name := mapGet gn r.group, routes := [r] } : Group))] := by
          simp only [addRoute]
          rw [if_neg (fun h => hfind h)]
        rw [haddr]
        have hnk : newGroupKeys (acc.map (fun p => p.1)) (r :: rs)
            = r.group :: newGroupKeys (r.group :: acc.map (fun p => p.1)) rs := by
          simp [newGroupKeys, hmem]
        rw [hnk]
        simp only [List.map_append, List.map_cons, List.map_nil]
        have hseen : newGroupKeys (acc.map (fun p => p.1) ++ [r.group]) rs
            = newGroupKeys (r.group :: acc.map (fun p => p.1)) rs :=
          newGroupKeys_congr rs _ _ (fun x => by
            simp [List.mem_append, List.mem_cons, or_comm])
        rw [hseen]
        rw [List.append_assoc]
        congr 1
        · apply List.map_congr_left
          intro p hp
          have hpne : ¬ (r.group = p.1) := fun h => hmem (h ▸ List.mem_map_of_mem _ hp)
          simp [List.filter_cons, hpne]
        · simp only [List.singleton_append, List.cons.injEq]
          constructor
          · have hg : r.group = r.group := rfl
            simp [List.filter_cons, hg]
          · apply List.map_congr_left
            intro k hk
            have hkne : ¬ (r.group = k) :=
              fun h => (mem_newGroupKeys rs _ k hk) (h ▸ List.mem_cons_self _ _)
            simp [List.filter_cons, hkne]

/-- Claim C7: `extractGroups` agrees with the spec-side
`computeVisibleGroups` on every input — groups appear in first-seen
key order (so permuting the input permutes the output accordingly),
routes stay in original insertion order within each group, and groups
with no visible route are dropped. -/
theorem claim_C7 (routing : List Route) (gn : List (String × String))
    (apiCaps : List String) (conn ready hA hS : Bool) :
    extractGroups routing gn apiCaps conn ready hA hS
      = computeVisibleGroups routing gn apiCaps conn ready hA hS := by
  unfold extractGroups computeVisibleGroups firstSeenKeys
  rw [foldl_addRoute gn routing []]
  simp only [List.map_nil, List.nil_append, List.map_map]
  rfl

end CrustApps
